import Mathlib

/-!
Verification development for the `polars-mongo` connector
(`src/lib.rs`): a shallow embedding of the scan engine that reads a
MongoDB collection into a Polars dataframe, together with theorems about
its partitioning, ordering, conversion and error behaviour.

The embedding mirrors `src/lib.rs`.  The crate's private modules
`buffer.rs` and `conversion.rs` are not present in the sources; the
`Buffer` operations and the value-to-dtype mapping are modelled from the
specification (§4.1–§4.3).  External collaborators (the MongoDB driver's
`find`, polars' `infer_schema`) are modelled from the specification of
the external interfaces (§6).
-/

namespace PolarsMongo

instance {ε α : Type} [DecidableEq ε] [DecidableEq α] : DecidableEq (Except ε α) :=
  fun a b =>
    match a, b with
    | .error e1, .error e2 =>
      if h : e1 = e2 then .isTrue (by rw [h])
      else .isFalse (by intro hc; cases hc; exact h rfl)
    | .ok a1, .ok a2 =>
      if h : a1 = a2 then .isTrue (by rw [h])
      else .isFalse (by intro hc; cases hc; exact h rfl)
    | .error _, .ok _ => .isFalse (by intro hc; cases hc)
    | .ok _, .error _ => .isFalse (by intro hc; cases hc)

/-- Tagged dynamic BSON value (`mongodb::bson::Bson`), restricted to the
tags relevant to the connector.  The payload of `double` is modelled as a
rational; only the tag matters for conversion decisions. -/
inductive Bson where
  | int32 (v : Int)
  | int64 (v : Int)
  | double (v : Rat)
  | string (s : String)
  | boolean (b : Bool)
  | datetime (millis : Int)
  | null
  | array (n : Nat)
  | document (n : Nat)
deriving Repr, DecidableEq

/-- Polars column type (`polars::prelude::DataType`), restricted to the
primitive families the spec names (§3 Data Model: Schema). -/
inductive DataType where
  | int32
  | int64
  | float64
  | boolean
  | string
  | datetime
  | list
  | struct
  | null
deriving Repr, DecidableEq

/-- A BSON document: an ordered field map (`mongodb::bson::Document`). -/
abbrev Doc : Type := List (String × Bson)

/-- `Document::get`: first value bound to a key, if any. -/
def Doc.get (d : Doc) (k : String) : Option Bson :=
  (d.find? (fun p => p.1 = k)).map (fun p => p.2)

/-- An ordered schema: column name to column type, in column order. -/
abbrev Schema : Type := List (String × DataType)

/-- One cell of a typed column buffer: a primitive payload or a null
marker. -/
inductive Cell where
  | null
  | int (v : Int)
  | float (v : Rat)
  | str (s : String)
  | bool (b : Bool)
deriving Repr, DecidableEq

/-- Modelled from the spec: the Value Converter of the missing module
`conversion.rs`/`buffer.rs` (§4.1).  Converts a tagged value for a buffer
of fixed type: `some` cell when the tags are structurally compatible
(numeric family to numeric buffer, boolean to boolean, string to string,
a null value to a null marker), `none` (a `ConversionError`) when the
families are incompatible — no implicit coercion across families. -/
def convertCell : DataType → Bson → Option Cell
  | _, .null => some .null
  | .int32, .int32 v => some (.int v)
  | .int32, .int64 v => some (.int v)
  | .int64, .int32 v => some (.int v)
  | .int64, .int64 v => some (.int v)
  | .float64, .int32 v => some (.float v)
  | .float64, .int64 v => some (.float v)
  | .float64, .double v => some (.float v)
  | .boolean, .boolean b => some (.bool b)
  | .string, .string s => some (.str s)
  | .datetime, .datetime m => some (.int m)
  | _, _ => none

/-- Modelled from the spec: a typed, append-only column buffer of the
missing module `buffer.rs` (§3, §4.1): a fixed column type plus the cells
appended so far. -/
structure Buffer where
  dtype : DataType
  cells : List Cell
deriving Repr, DecidableEq

/-- Modelled from the spec: `Buffer::add` appends a converted value or
fails with a `ConversionError` when the value's tag is structurally
incompatible with the buffer's fixed type (§4.1). -/
def Buffer.add (b : Buffer) (v : Bson) : Except String Buffer :=
  match convertCell b.dtype v with
  | some c => .ok { b with cells := b.cells ++ [c] }
  | none => .error "ConversionError"

/-- Modelled from the spec: `Buffer::add_null` appends a null marker;
this operation is total — it never fails (§4.1).  (Its infallibility is
also visible in `lib.rs`: the `None` arm of `parse_lines` calls it with
no error handling.) -/
def Buffer.add_null (b : Buffer) : Buffer :=
  { b with cells := b.cells ++ [.null] }

/-- The per-partition buffer set (`PlIndexMap<String, Buffer>`): one
buffer per schema column, in schema (insertion) order. -/
abbrev Buffers : Type := List (String × Buffer)

/-- Modelled from the spec: `init_buffers` of the missing `buffer.rs`
(§4.3) creates one empty buffer per schema column, in schema order; the
capacity hint only pre-reserves memory and does not affect contents. -/
def init_buffers (schema : Schema) (_capacity : Nat) : Buffers :=
  schema.map (fun p => (p.1, { dtype := p.2, cells := [] }))

/-- Outcome of running code that may panic (a Rust `panic!`, e.g. via
`expect`/`unwrap`), as distinct from returning an error value. -/
inductive PanicOr (α : Type) where
  | panic (msg : String)
  | ok (a : α)
deriving Repr, DecidableEq

/-- The body of the `for_each` in `MongoScan::parse_lines` applied to one
document: for each schema column in buffer order, adds the document's
value when the field is present — panicking with the `expect` message
when the conversion fails — and appends a null marker when the field is
absent. -/
def processDoc (doc : Doc) : Buffers → PanicOr Buffers
  | [] => .ok []
  | (name, buf) :: rest =>
    match Doc.get doc name with
    | some v =>
      match buf.add v with
      | .error _ => .panic "was not able to add to buffer."
      | .ok buf' =>
        match processDoc doc rest with
        | .panic m => .panic m
        | .ok rest' => .ok ((name, buf') :: rest')
    | none =>
      match processDoc doc rest with
      | .panic m => .panic m
      | .ok rest' => .ok ((name, buf.add_null) :: rest')

/-- `MongoScan::parse_lines`: drains the cursor with
`while let Some(Ok(doc)) = cursor.next()`, converting each document into
the buffers.  A stream item that is a driver-level error ends the loop
(the `while let` pattern fails) and the function returns `Ok(())`; the
only failure mode is the panic raised by `expect` on a conversion
error. -/
def parse_lines (stream : List (Except String Doc)) (buffers : Buffers) :
    PanicOr (Except String Buffers) :=
  match stream with
  | [] => .ok (.ok buffers)
  | .error _ :: _ => .ok (.ok buffers)
  | .ok doc :: rest =>
    match processDoc doc buffers with
    | .panic m => .panic m
    | .ok buffers' => parse_lines rest buffers'

/-! ## Partition plan (`MongoScan::scan`, lines 143–154) -/

/-- `rows_per_thread = n_rows / n_threads` (truncating integer
division). -/
def rowsPerThread (nRows nThreads : Nat) : Nat := nRows / nThreads

/-- The partition plan of `MongoScan::scan`: partition `i` gets
`skip = i * rows_per_thread`, `limit = rows_per_thread`. -/
def partitionPlan (nRows nThreads : Nat) : List (Nat × Nat) :=
  (List.range nThreads).map
    (fun i => (i * rowsPerThread nRows nThreads, rowsPerThread nRows nThreads))

/-- Absolute row index `r` is covered by some partition of the plan. -/
def coveredRow (nRows nThreads r : Nat) : Prop :=
  ∃ i < nThreads,
    i * rowsPerThread nRows nThreads ≤ r ∧
    r < i * rowsPerThread nRows nThreads + rowsPerThread nRows nThreads

/-! ## The scan facade (`MongoScan`, `MongoScan::new`) -/

/-- Parsed connection parameters (`mongodb::options::ClientOptions`);
opaque to the connector, so modelled by the accepted URI. -/
structure ClientOptions where
  uri : String
deriving Repr, DecidableEq

/-- Character-list prefix test on strings. -/
def strHasPrefix (p s : String) : Bool := p.data.isPrefixOf s.data

/-- Model of the external driver's `ClientOptions::parse`: succeeds on a
well-formed `mongodb://` / `mongodb+srv://` connection string and fails
with a driver error on a malformed one (§6: connect-by-URI). -/
def clientOptionsParse (s : String) : Except String ClientOptions :=
  if strHasPrefix "mongodb://" s || strHasPrefix "mongodb+srv://" s then
    .ok { uri := s }
  else
    .error "invalid connection string"

/-- `polars::prelude::PolarsError`, restricted to the variants the
connector produces or that its callees produce. -/
inductive PolarsError where
  | invalidOperation (msg : String)
  | computeError (msg : String)
  | shapeError (msg : String)
  | notFound (msg : String)
deriving Repr, DecidableEq

/-- The scan facade `MongoScan`: connection parameters, names, an
optional cached collection handle (opaque, modelled as `Option Unit`),
and the configuration fields. -/
structure MongoScan where
  client_options : ClientOptions
  db : String
  collection_name : String
  collection : Option Unit
  n_threads : Option Nat
  batch_size : Option Nat
  rechunk : Bool
deriving Repr, DecidableEq

/-- `MongoScan::new`: parses the connection string — mapping a driver
parse error to `PolarsError::InvalidOperation` — and on success returns
the facade with `collection = None`, `n_threads = None`,
`rechunk = false`, `batch_size = None`. -/
def MongoScan.new (connection_str db collection : String) :
    Except PolarsError MongoScan :=
  match clientOptionsParse connection_str with
  | .error e =>
    .error (.invalidOperation ("unable to connect to mongodb: " ++ e))
  | .ok client_options =>
    .ok { client_options := client_options
          db := db
          collection_name := collection
          collection := none
          n_threads := none
          batch_size := none
          rechunk := false }

/-- `MongoScan::with_rechunk`. -/
def MongoScan.with_rechunk (s : MongoScan) (rechunk : Bool) : MongoScan :=
  { s with rechunk := rechunk }

/-- `MongoScan::with_batch_size`. -/
def MongoScan.with_batch_size (s : MongoScan) (batch_size : Option Nat) :
    MongoScan :=
  { s with batch_size := batch_size }

/-! ## Find options and the external store -/

/-- The sort document the connector issues: `doc! \x7b"_id": -1\x7d`
(descending identity order) is the only sort it ever sets. -/
inductive SortSpec where
  | idDesc
deriving Repr, DecidableEq

/-- `mongodb::options::FindOptions`, restricted to the fields the
connector sets. -/
structure FindOptions where
  projection : Option Doc
  batch_size : Option Nat
  sort : Option SortSpec
  skip : Option Nat
  limit : Option Nat
deriving DecidableEq

/-- `FindOptions::default()`: everything unset. -/
def FindOptions.default : FindOptions :=
  { projection := none, batch_size := none, sort := none,
    skip := none, limit := none }

/-- The `_id` of a document, for ordering; non-integer or missing
identities order as 0 (the model collections use integer
identities). -/
def docId (d : Doc) : Int :=
  match Doc.get d "_id" with
  | some (.int64 v) => v
  | some (.int32 v) => v
  | _ => 0

/-- Descending identity order on documents, as a decidable relation. -/
def docDescLE (a b : Doc) : Prop := docId b ≤ docId a

instance : DecidableRel docDescLE := fun a b => by
  unfold docDescLE; infer_instance

instance : IsTotal Doc docDescLE :=
  ⟨fun a b => le_total (docId b) (docId a)⟩

instance : IsTrans Doc docDescLE :=
  ⟨fun _ _ _ hab hbc => le_trans hbc hab⟩

/-- Modelled from the spec: a document kept only on its projected
fields.  MongoDB field-inclusion projection also always returns the
`_id` field. -/
def projectDoc (prj : Doc) (d : Doc) : Doc :=
  d.filter (fun p => p.1 = "_id" || prj.any (fun q => q.1 = p.1))

/-- Modelled from the spec: the external store's `find` operation (§6):
applies the optional sort, then `skip`, then `limit` (the query is
bounded by `limit` rows), then the optional field-inclusion projection,
and yields the resulting document sequence.  The model store is
reachable and yields no mid-stream driver errors. -/
def findModel (coll : List Doc) (opts : FindOptions) : List Doc :=
  let sorted :=
    match opts.sort with
    | some .idDesc => List.insertionSort docDescLE coll
    | none => coll
  let skipped := sorted.drop (opts.skip.getD 0)
  let limited :=
    match opts.limit with
    | some l => skipped.take l
    | none => skipped
  match opts.projection with
  | some prj => limited.map (projectDoc prj)
  | none => limited

/-! ## DataFrame model -/

/-- A dataframe, row-major: the column names in order, and the rows, each
row holding one cell per column. -/
structure DataFrame where
  cols : List String
  rows : List (List Cell)
deriving DecidableEq

/-- Number of rows of the result table. -/
def DataFrame.rowCount (df : DataFrame) : Nat := df.rows.length

/-- The cell lists of the buffers, in buffer order. -/
def dfCells (bufs : Buffers) : List (List Cell) :=
  bufs.map (fun p => p.2.cells)

/-- Rows of a column-major cell matrix whose columns all have length
`n`. -/
def mkRows (n : Nat) (cols : List (List Cell)) : List (List Cell) :=
  (List.range n).map (fun i => cols.map (fun c => c.getD i .null))

/-- `DataFrame::new` applied to the finalized buffers
(`buf.into_series()` in buffer order): succeeds when every column has
the same length, and fails with a shape error otherwise. -/
def dataFrameNew (bufs : Buffers) : Except PolarsError DataFrame :=
  match dfCells bufs with
  | [] => .ok { cols := [], rows := [] }
  | c :: cs =>
    if cs.all (fun c2 => c2.length = c.length) then
      .ok { cols := bufs.map (fun p => p.1),
            rows := mkRows c.length (dfCells bufs) }
    else
      .error (.shapeError "could not create a new DataFrame: series have different lengths")

/-- `DataFrame::vstack`: vertical concatenation of two frames with
matching column sets. -/
def vstack (a b : DataFrame) : Except PolarsError DataFrame :=
  if b.cols = a.cols then
    .ok { cols := a.cols, rows := a.rows ++ b.rows }
  else
    .error (.shapeError "column names do not match")

/-- `vstack` folded over the remaining frames, stopping at the first
mismatch. -/
def vstackFold (acc : DataFrame) : List DataFrame → Except PolarsError DataFrame
  | [] => .ok acc
  | d :: ds =>
    match vstack acc d with
    | .error e => .error e
    | .ok acc2 => vstackFold acc2 ds

/-- `accumulate_dataframes_vertical`: concatenates the partition frames
in partition order; fails on an empty input. -/
def accumulateDfs : List DataFrame → Except PolarsError DataFrame
  | [] => .error (.computeError "expected at least one DataFrame")
  | d :: ds => vstackFold d ds

/-- The ordering key of a row at key-column index `j`: its integer
payload (the model's identity columns are integer-valued). -/
def rowKey (j : Nat) (row : List Cell) : Int :=
  match row.getD j .null with
  | .int v => v
  | _ => 0

/-- Ascending order on rows by the key column at index `j`. -/
def rowAscLE (j : Nat) (a b : List Cell) : Prop := rowKey j a ≤ rowKey j b

instance (j : Nat) : DecidableRel (rowAscLE j) := fun a b => by
  unfold rowAscLE; infer_instance

instance (j : Nat) : IsTotal (List Cell) (rowAscLE j) :=
  ⟨fun a b => le_total (rowKey j a) (rowKey j b)⟩

instance (j : Nat) : IsTrans (List Cell) (rowAscLE j) :=
  ⟨fun _ _ _ hab hbc => le_trans hab hbc⟩

/-- `df.sort(["_id"], false)`: sorts the rows ascending by the `_id`
column; fails when the frame has no `_id` column. -/
def DataFrame.sortById (df : DataFrame) : Except PolarsError DataFrame :=
  match df.cols.findIdx? (fun c => c = "_id") with
  | none => .error (.notFound "_id")
  | some j => .ok { cols := df.cols, rows := List.insertionSort (rowAscLE j) df.rows }

/-! ## The scan pipeline (`AnonymousScan for MongoScan`) -/

/-- `polars::prelude::AnonymousScanOptions` as the connector consumes
it: the full schema, the host's requested output schema (projection
pushdown), and the requested row count. -/
structure AnonymousScanOptions where
  schema : Schema
  output_schema : Option Schema
  n_rows : Option Nat
deriving DecidableEq

/-- The projection document the scan builds from the requested output
schema: each requested column name mapped to `Bson::Int64(1)`. -/
def mkProjection (output_schema : Option Schema) : Option Doc :=
  output_schema.map (fun sch => sch.map (fun p => (p.1, Bson.int64 1)))

/-- The effective total row count: the caller's `n_rows` or, when
absent, the collection's estimated document count (the model store's
estimate is exact). -/
def effectiveNRows (opts : AnonymousScanOptions) (coll : List Doc) : Nat :=
  opts.n_rows.getD coll.length

/-- The thread count the scan uses: the configured override or the pool
width, forced to 1 when the effective row count is below 128. -/
def effectiveThreads (s : MongoScan) (poolThreads nRows : Nat) : Nat :=
  if nRows < 128 then 1 else s.n_threads.getD poolThreads

/-- The find options before per-partition cloning: the projection
document, the configured batch size, and — exactly when the caller
explicitly bounded `n_rows` — a descending identity sort. -/
def baseFindOptions (s : MongoScan) (opts : AnonymousScanOptions) : FindOptions :=
  { projection := mkProjection opts.output_schema
    batch_size := s.batch_size
    sort := if opts.n_rows.getD 0 > 0 then some .idDesc else none
    skip := none
    limit := none }

/-- Partition `idx`'s find options: the cloned base options with
`skip = idx * rows_per_thread` and `limit = rows_per_thread`. -/
def partitionFindOptions (base : FindOptions) (rpt idx : Nat) : FindOptions :=
  { base with skip := some (idx * rpt), limit := some rpt }

/-- The query one partition sends to the store:
`collection.find(None, Some(find_options))` — the filter argument is the
literal `None`. -/
structure IssuedQuery where
  filter : Option Doc
  options : FindOptions
deriving DecidableEq

/-- The query issued for partition `idx` of a scan. -/
def issuedQuery (s : MongoScan) (poolThreads : Nat)
    (opts : AnonymousScanOptions) (coll : List Doc) (idx : Nat) : IssuedQuery :=
  let nRows := effectiveNRows opts coll
  let t := effectiveThreads s poolThreads nRows
  { filter := none
    options := partitionFindOptions (baseFindOptions s opts) (rowsPerThread nRows t) idx }

/-- The body of the per-partition closure: issue the bounded query,
drain the resulting document stream into a fresh buffer set, and
finalize the buffers into a frame. -/
def scanPartition (schema : Schema) (base : FindOptions) (coll : List Doc)
    (rpt idx : Nat) : PanicOr (Except PolarsError DataFrame) :=
  let stream := (findModel coll (partitionFindOptions base rpt idx)).map Except.ok
  let buffers := init_buffers schema rpt
  match parse_lines stream buffers with
  | .panic m => .panic m
  | .ok (.error e) => .ok (.error (.computeError e))
  | .ok (.ok bufs) => .ok (dataFrameNew bufs)

/-- `collect::<PolarsResult<Vec<_>>>()` over the partition results,
with a panic in any partition propagating (rayon re-raises worker
panics in the caller). -/
def gatherParts :
    List (PanicOr (Except PolarsError DataFrame)) →
      PanicOr (Except PolarsError (List DataFrame))
  | [] => .ok (.ok [])
  | .panic m :: _ => .panic m
  | .ok (.error e) :: _ => .ok (.error e)
  | .ok (.ok df) :: rest =>
    match gatherParts rest with
    | .panic m => .panic m
    | .ok (.error e) => .ok (.error e)
    | .ok (.ok dfs) => .ok (.ok (df :: dfs))

/-- The partition plan a scan invocation issues: one `(skip, limit)`
range per partition. -/
def scanPlans (s : MongoScan) (poolThreads : Nat)
    (opts : AnonymousScanOptions) (coll : List Doc) : List (Nat × Nat) :=
  let nRows := effectiveNRows opts coll
  partitionPlan nRows (effectiveThreads s poolThreads nRows)

/-- `MongoScan::scan`: builds the find options, resolves the effective
row and thread counts, fans the partition plan out, gathers the
partition frames, concatenates them vertically, and — exactly when the
caller bounded `n_rows` — re-sorts the concatenation ascending by
`_id`.  A zero thread count would make `n_rows / n_threads` panic, as
Rust integer division by zero does. -/
def scanModel (s : MongoScan) (poolThreads : Nat)
    (opts : AnonymousScanOptions) (coll : List Doc) :
    PanicOr (Except PolarsError DataFrame) :=
  let base := baseFindOptions s opts
  let schema := opts.output_schema.getD opts.schema
  let nRows := effectiveNRows opts coll
  let nRowsNum := opts.n_rows.getD 0
  let t := effectiveThreads s poolThreads nRows
  if t = 0 then .panic "attempt to divide by zero"
  else
    let rpt := rowsPerThread nRows t
    match gatherParts ((List.range t).map (scanPartition schema base coll rpt)) with
    | .panic m => .panic m
    | .ok (.error e) => .ok (.error e)
    | .ok (.ok dfs) =>
      match accumulateDfs dfs with
      | .error e => .ok (.error e)
      | .ok df =>
        if nRowsNum > 0 then .ok df.sortById else .ok (.ok df)

/-- `MongoScan::scan` as a state-passing function: the method takes the
facade by shared reference (`&self`) and its body assigns only to
locals, so the embedding threads the facade through unchanged. -/
def scanFull (s : MongoScan) (poolThreads : Nat)
    (opts : AnonymousScanOptions) (coll : List Doc) :
    PanicOr (Except PolarsError DataFrame) × MongoScan :=
  (scanModel s poolThreads opts coll, s)

/-! ## Schema inference (`MongoScan::schema`) -/

/-- Modelled from the spec: the value-to-column-type mapping
`Wrap::<DataType>::from(&Bson)` of the missing module `conversion.rs`
(§4.2): each value tag maps to its best-fit primitive column type. -/
def bsonDataType : Bson → DataType
  | .int32 _ => .int32
  | .int64 _ => .int64
  | .double _ => .float64
  | .string _ => .string
  | .boolean _ => .boolean
  | .datetime _ => .datetime
  | .null => .null
  | .array _ => .list
  | .document _ => .struct

/-- One sampled document as a field-name-to-type row. -/
def docTypeRow (d : Doc) : List (String × DataType) :=
  d.map (fun p => (p.1, bsonDataType p.2))

/-- Numeric widening used when two sampled types disagree. -/
def unifyDataType (a b : DataType) : DataType :=
  if a = b then a
  else
    match a, b with
    | .null, x => x
    | x, .null => x
    | .int32, .int64 => .int64
    | .int64, .int32 => .int64
    | .int32, .float64 => .float64
    | .int64, .float64 => .float64
    | .float64, .int32 => .float64
    | .float64, .int64 => .float64
    | _, _ => .string

/-- Inserts one observed field into the schema being built: widens the
type of a known column, appends an unknown column (first-seen order). -/
def schemaUpsert (sch : Schema) (key : String) (dt : DataType) : Schema :=
  if sch.any (fun p => p.1 = key) then
    sch.map (fun p => if p.1 = key then (p.1, unifyDataType p.2 dt) else p)
  else
    sch ++ [(key, dt)]

/-- Model of the external dataframe library's `infer_schema`: folds the
sampled type rows into one ordered schema (first-seen column order,
widening on conflict).  Its signature returns a `Schema`, never an
error — it is total, and an empty sample yields the empty schema. -/
def inferSchemaModel (rows : List (List (String × DataType))) : Schema :=
  rows.foldl (fun acc row => row.foldl (fun a kv => schemaUpsert a kv.1 kv.2) acc) []

/-- The `doc.unwrap()` inside the schema sample iterator: a mid-stream
driver error panics; otherwise the documents are returned in order. -/
def unwrapDocs : List (Except String Doc) → PanicOr (List Doc)
  | [] => .ok []
  | .error m :: _ => .panic m
  | .ok d :: rest =>
    match unwrapDocs rest with
    | .panic m => .panic m
    | .ok ds => .ok (d :: ds)

/-- `MongoScan::schema`: issues the sampling find (whose outcome,
including possible mid-stream item errors, is the `findResult` input),
maps the initial find error to a compute error, lazily unwraps each
consumed sampled document — panicking on a mid-stream error — and
infers the schema from at most `infer_schema_length` (default 100)
sampled rows. -/
def schemaModel (findResult : Except String (List (Except String Doc)))
    (infer_schema_length : Option Nat) : PanicOr (Except PolarsError Schema) :=
  match findResult with
  | .error e => .ok (.error (.computeError e))
  | .ok stream =>
    match unwrapDocs (stream.take (infer_schema_length.getD 100)) with
    | .panic m => .panic m
    | .ok docs => .ok (.ok (inferSchemaModel (docs.map docTypeRow)))

/-- `MongoScan::schema` as a state-passing function: `&self`, body
assigns only to locals, facade threaded through unchanged. -/
def schemaFull (s : MongoScan)
    (findResult : Except String (List (Except String Doc)))
    (infer_schema_length : Option Nat) :
    PanicOr (Except PolarsError Schema) × MongoScan :=
  (schemaModel findResult infer_schema_length, s)

/-! ## Pushdown capability flags -/

/-- `AnonymousScan::allows_predicate_pushdown` for `MongoScan`. -/
def MongoScan.allows_predicate_pushdown (_s : MongoScan) : Bool := true

/-- `AnonymousScan::allows_projection_pushdown` for `MongoScan`. -/
def MongoScan.allows_projection_pushdown (_s : MongoScan) : Bool := true

/-- `AnonymousScan::allows_slice_pushdown` for `MongoScan`. -/
def MongoScan.allows_slice_pushdown (_s : MongoScan) : Bool := true

/-- Row count of a scan outcome, when the scan returned a frame. -/
def scanRowCount (r : PanicOr (Except PolarsError DataFrame)) : Option Nat :=
  match r with
  | .ok (.ok df) => some df.rowCount
  | _ => none

/-! ## Concrete instances used to exercise the theorems -/

/-- A facade with no thread-count override and all defaults. -/
def exMongo : MongoScan :=
  { client_options := { uri := "mongodb://h" }, db := "d",
    collection_name := "c", collection := none, n_threads := none,
    batch_size := none, rechunk := false }

/-- Scan options requesting 100 rows with an empty schema. -/
def exOpts100 : AnonymousScanOptions :=
  { schema := [], output_schema := none, n_rows := some 100 }

/-- A document with an integer identity and a string field. -/
def exDocA : Doc := [("_id", Bson.int64 1), ("x", Bson.string "a")]

/-- A document with only an integer identity. -/
def exDocB : Doc := [("_id", Bson.int64 2)]

/-- A buffer set for a single `_id : Int64` column. -/
def exBufs : Buffers := [("_id", { dtype := DataType.int64, cells := [] })]

/-- A buffer set for a single `x : Int64` column. -/
def exBufsX : Buffers := [("x", { dtype := DataType.int64, cells := [] })]

/-- Scan options for a two-column schema requesting a single row. -/
def exOptsBad : AnonymousScanOptions :=
  { schema := [("_id", DataType.int64), ("x", DataType.int64)],
    output_schema := none, n_rows := some 1 }

/-- A one-document collection whose `x` field holds a string, which is
incompatible with the `x : Int64` column. -/
def exCollBad : List Doc := [[("_id", Bson.int64 0), ("x", Bson.string "a")]]

/-- A document holding only an integer identity. -/
def idDoc (k : Nat) : Doc := [("_id", Bson.int64 k)]

/-- The identity cell the converter produces for an identity-only
document. -/
def idCell (d : Doc) : Cell :=
  match Doc.get d "_id" with
  | some (Bson.int64 v) => Cell.int v
  | _ => Cell.null

/-- A 1000-document model collection with identities `0,…,999`. -/
def collC1 : List Doc := (List.range 1000).map idDoc

/-- Scan options for the top-N scenario: schema `_id : Int64`,
requested row bound `n_rows = 129`. -/
def scanOptsC1 : AnonymousScanOptions :=
  { schema := [("_id", DataType.int64)], output_schema := none,
    n_rows := some 129 }

/-- A facade configured with a thread-count override of `t`. -/
def mongoC1 (t : Nat) : MongoScan :=
  { client_options := { uri := "mongodb://h" }, db := "d",
    collection_name := "c", collection := none, n_threads := some t,
    batch_size := none, rechunk := false }

/-- The documents the store serves for one partition's query. -/
def servedDocs (coll : List Doc) (base : FindOptions) (rpt idx : Nat) :
    List Doc :=
  findModel coll (partitionFindOptions base rpt idx)

/-- The frame a partition produces when its schema is the single
`_id : Int64` column. -/
def partDF (coll : List Doc) (base : FindOptions) (rpt idx : Nat) :
    DataFrame :=
  { cols := ["_id"],
    rows := mkRows ((servedDocs coll base rpt idx).map idCell).length
      [(servedDocs coll base rpt idx).map idCell] }

/-! ## Helper lemmas -/

lemma partitionPlan_map_snd (n t : Nat) :
    ((partitionPlan n t).map Prod.snd).sum = t * (n / t) := by
  have h1 : (partitionPlan n t).map Prod.snd = List.replicate t (n / t) := by
    rw [List.eq_replicate_iff]
    refine ⟨by simp [partitionPlan], ?_⟩
    intro b hb
    simp only [partitionPlan, rowsPerThread, List.map_map, List.mem_map,
      List.mem_range] at hb
    obtain ⟨i, _, hi⟩ := hb
    simpa using hi.symm
  have h2 : ((partitionPlan n t).map Prod.snd).length = t := by
    simp [partitionPlan]
  calc ((partitionPlan n t).map Prod.snd).sum
      = (List.replicate t (n / t)).sum := by rw [h1]
    _ = t * (n / t) := by simp [List.sum_replicate, smul_eq_mul]

lemma coveredRow_iff (n t r : Nat) (_ht : 1 ≤ t) :
    coveredRow n t r ↔ r < n - n % t := by
  have hdm := Nat.div_add_mod n t
  have htq : t * (n / t) = n - n % t := by
    have := Nat.mod_le n t
    omega
  rw [← htq]
  unfold coveredRow rowsPerThread
  constructor
  · rintro ⟨i, hit, _h1, h2⟩
    have hle : i * (n / t) + n / t ≤ t * (n / t) := by
      have hmul : (i + 1) * (n / t) ≤ t * (n / t) :=
        Nat.mul_le_mul_right _ (by omega)
      calc i * (n / t) + n / t = (i + 1) * (n / t) := by ring
        _ ≤ t * (n / t) := hmul
    exact lt_of_lt_of_le h2 hle
  · intro hr
    rcases Nat.eq_zero_or_pos (n / t) with hq | hq
    · rw [hq] at hr
      omega
    · refine ⟨r / (n / t), ?_, Nat.div_mul_le_self r (n / t), ?_⟩
      · by_contra hcon
        push_neg at hcon
        have hge : t * (n / t) ≤ r / (n / t) * (n / t) :=
          Nat.mul_le_mul_right _ hcon
        have hle2 : r / (n / t) * (n / t) ≤ r := Nat.div_mul_le_self r (n / t)
        omega
      · have h1 := Nat.div_add_mod r (n / t)
        have h2 := Nat.mod_lt r hq
        calc r = (n / t) * (r / (n / t)) + r % (n / t) := h1.symm
          _ < (n / t) * (r / (n / t)) + n / t := by omega
          _ = r / (n / t) * (n / t) + n / t := by ring

/-! ## Claim theorems -/

/-- Claim C2: for every effective row count `n_rows` and every thread
count `n_threads ≥ 1` used by `scan`, the partition plan assigns to
partition `i` the range `skip = i * rows_per_thread`,
`limit = rows_per_thread` with
`rows_per_thread = n_rows / n_threads` (truncating); the partitions
together cover exactly the first
`n_threads * rows_per_thread = n_rows - n_rows % n_threads` rows, so the
last `n_rows % n_threads` rows are assigned to no partition. -/
theorem claim_C2_partition_plan (n t : Nat) (ht : 1 ≤ t) :
    (∀ i, i < t → (partitionPlan n t)[i]? = some (i * (n / t), n / t)) ∧
    ((partitionPlan n t).map Prod.snd).sum = t * (n / t) ∧
    t * (n / t) = n - n % t ∧
    (∀ r, coveredRow n t r ↔ r < n - n % t) := by
  refine ⟨?_, partitionPlan_map_snd n t, ?_, fun r => coveredRow_iff n t r ht⟩
  · intro i hi
    simp [partitionPlan, rowsPerThread, hi]
  · have := Nat.div_add_mod n t
    omega

/-- Witness for C2 at `n_rows = 5`, `n_threads = 2`. -/
theorem claim_C2_witness :
    (∀ i, i < 2 → (partitionPlan 5 2)[i]? = some (i * (5 / 2), 5 / 2)) ∧
    ((partitionPlan 5 2).map Prod.snd).sum = 2 * (5 / 2) ∧
    2 * (5 / 2) = 5 - 5 % 2 ∧
    (∀ r, coveredRow 5 2 r ↔ r < 5 - 5 % 2) :=
  claim_C2_partition_plan 5 2 (by decide)

/-- Claim C5: when the effective row count is below 128 the scan uses
exactly one partition — covering `skip = 0`, `limit = n_rows` — and at
or above 128 it uses the configured (or pool-derived) thread count
unchanged. -/
theorem claim_C5_thread_clamp (s : MongoScan) (poolThreads : Nat)
    (opts : AnonymousScanOptions) (coll : List Doc) :
    (scanPlans s poolThreads opts coll).length =
      (if effectiveNRows opts coll < 128 then 1
       else s.n_threads.getD poolThreads) ∧
    (effectiveNRows opts coll < 128 →
      scanPlans s poolThreads opts coll = [(0, effectiveNRows opts coll)]) := by
  constructor
  · by_cases h : effectiveNRows opts coll < 128 <;>
      simp [scanPlans, partitionPlan, effectiveThreads, h]
  · intro h
    simp [scanPlans, partitionPlan, effectiveThreads, h, rowsPerThread,
      List.range_succ]

/-- Witness for C5: a 100-row scan with an 8-thread pool uses one
partition covering all 100 rows. -/
theorem claim_C5_witness :
    ((scanPlans exMongo 8 exOpts100 []).length =
      (if effectiveNRows exOpts100 [] < 128 then 1 else 8)) ∧
    (scanPlans exMongo 8 exOpts100 [] = [(0, 100)]) := by
  have h := claim_C5_thread_clamp exMongo 8 exOpts100 []
  refine ⟨?_, ?_⟩
  · have := h.1
    simpa [exMongo] using this
  · have := h.2 (by decide)
    simpa [effectiveNRows, exOpts100] using this

/-- Claim C8: the facade declares predicate, projection and slice
pushdown to the host engine, but the only pushdown reflected in the
issued query is projection: the requested output schema's column names
become a field-inclusion projection document (each name mapped to
`Int64(1)`), while the filter sent to the store is always `None` — the
issued query carries no predicate, and no input besides the output
schema, the configured batch size, the requested row count and the
partition index shapes it. -/
theorem claim_C8_pushdown (s : MongoScan) (poolThreads : Nat)
    (opts : AnonymousScanOptions) (coll : List Doc) (idx : Nat) :
    s.allows_predicate_pushdown = true ∧
    s.allows_projection_pushdown = true ∧
    s.allows_slice_pushdown = true ∧
    (issuedQuery s poolThreads opts coll idx).filter = none ∧
    (issuedQuery s poolThreads opts coll idx).options.projection =
      opts.output_schema.map (fun sch => sch.map (fun p => (p.1, Bson.int64 1))) ∧
    (issuedQuery s poolThreads opts coll idx).options.batch_size = s.batch_size := by
  refine ⟨rfl, rfl, rfl, rfl, ?_, rfl⟩
  simp [issuedQuery, partitionFindOptions, baseFindOptions, mkProjection]

/-- Claim C9: construction fails with the connector's connection error
(`InvalidOperation`, wrapping the driver's parse error) exactly when the
driver rejects the connection string, and on success returns a facade
with no cached collection handle, no thread-count override, no batch
size, and rechunk disabled. -/
theorem claim_C9_new (cs db c : String) :
    (∀ e, clientOptionsParse cs = .error e →
      MongoScan.new cs db c =
        .error (.invalidOperation ("unable to connect to mongodb: " ++ e))) ∧
    (∀ o, clientOptionsParse cs = .ok o →
      MongoScan.new cs db c =
        .ok { client_options := o, db := db, collection_name := c,
              collection := none, n_threads := none, batch_size := none,
              rechunk := false }) := by
  constructor
  · intro e he
    unfold MongoScan.new
    rw [he]
  · intro o ho
    unfold MongoScan.new
    rw [ho]

/-- Witness for C9: a malformed string fails, a well-formed one yields
the default-configured facade. -/
theorem claim_C9_witness :
    MongoScan.new "not-a-uri" "d" "c" =
      .error (.invalidOperation
        ("unable to connect to mongodb: " ++ "invalid connection string")) ∧
    MongoScan.new "mongodb://h" "d" "c" =
      .ok { client_options := { uri := "mongodb://h" }, db := "d",
            collection_name := "c", collection := none, n_threads := none,
            batch_size := none, rechunk := false } :=
  ⟨(claim_C9_new "not-a-uri" "d" "c").1 "invalid connection string" (by decide),
   (claim_C9_new "mongodb://h" "d" "c").2 { uri := "mongodb://h" } (by decide)⟩

/-- Claim C10: `scan` and `schema` take the facade by shared reference
and leave every configuration field unchanged, so a second invocation
observes the identical configuration and produces the identical
result. -/
theorem claim_C10_frame (s : MongoScan) (poolThreads : Nat)
    (opts : AnonymousScanOptions) (coll : List Doc)
    (findResult : Except String (List (Except String Doc)))
    (len : Option Nat) :
    (scanFull s poolThreads opts coll).2 = s ∧
    (schemaFull s findResult len).2 = s ∧
    scanFull (scanFull s poolThreads opts coll).2 poolThreads opts coll =
      scanFull s poolThreads opts coll ∧
    schemaFull (schemaFull s findResult len).2 findResult len =
      schemaFull s findResult len :=
  ⟨rfl, rfl, rfl, rfl⟩

lemma parse_lines_no_driver_error (stream : List (Except String Doc)) :
    ∀ (buffers : Buffers) (me : String),
      parse_lines stream buffers ≠ .ok (.error me) := by
  induction stream with
  | nil => intro buffers me h; simp [parse_lines] at h
  | cons x rest ih =>
    intro buffers me h
    cases x with
    | error e => simp [parse_lines] at h
    | ok doc =>
      rw [parse_lines] at h
      cases hp : processDoc doc buffers with
      | panic m => rw [hp] at h; simp at h
      | ok b' => rw [hp] at h; exact ih b' me h

/-- Claim C4: `parse_lines` stops at the first stream item that is a
driver-level error and returns `Ok`: the documents converted so far are
kept, everything after the error is dropped, and no driver error is ever
reported to the caller — the partition yields a truncated table instead
of a failure. -/
theorem claim_C4_driver_error_swallowed (pre : List Doc) (e : String)
    (post : List (Except String Doc)) (buffers : Buffers) :
    parse_lines (pre.map Except.ok ++ Except.error e :: post) buffers =
      parse_lines (pre.map Except.ok) buffers ∧
    (∀ stream bufs me, parse_lines stream bufs ≠ .ok (.error me)) := by
  refine ⟨?_, fun stream bufs me => parse_lines_no_driver_error stream bufs me⟩
  induction pre generalizing buffers with
  | nil => simp [parse_lines]
  | cons d rest ih =>
    simp only [List.map_cons, List.cons_append]
    rw [parse_lines, parse_lines]
    cases hp : processDoc d buffers with
    | panic m => rfl
    | ok b' => exact ih b'

/-- Witness for C4: with one good document before the error and one
after, the result equals the one-document parse, and an error stream
item never surfaces as an error result. -/
theorem claim_C4_witness :
    parse_lines ([exDocA].map Except.ok ++ Except.error "io" :: [Except.ok exDocB])
        exBufs =
      parse_lines ([exDocA].map Except.ok) exBufs ∧
    parse_lines [Except.error "io"] exBufs ≠ .ok (.error "io") := by
  have h := claim_C4_driver_error_swallowed [exDocA] "io" [Except.ok exDocB] exBufs
  exact ⟨h.1, h.2 [Except.error "io"] exBufs "io"⟩

lemma processDoc_absent (doc : Doc) :
    ∀ (buffers buffers' : Buffers) (c : String) (buf : Buffer),
      processDoc doc buffers = .ok buffers' →
      buffers.lookup c = some buf →
      Doc.get doc c = none →
      buffers'.lookup c = some buf.add_null := by
  intro buffers
  induction buffers with
  | nil =>
    intro buffers' c buf _h hl _habs
    simp [List.lookup] at hl
  | cons p rest ih =>
    intro buffers' c buf h hl habs
    obtain ⟨name, b0⟩ := p
    by_cases hc : c = name
    · subst hc
      simp only [List.lookup, beq_self_eq_true] at hl
      simp only [processDoc, habs] at h
      cases hrec : processDoc doc rest with
      | panic m => rw [hrec] at h; simp at h
      | ok rest' =>
        rw [hrec] at h
        simp only [PanicOr.ok.injEq] at h
        subst h
        simp only [List.lookup, beq_self_eq_true, Option.some.injEq] at hl ⊢
        rw [← hl]
    · have hbeq : (c == name) = false := by simp [hc]
      simp only [List.lookup, hbeq] at hl
      cases hg : Doc.get doc name with
      | some v =>
        simp only [processDoc, hg] at h
        cases hadd : Buffer.add b0 v with
        | error msg => rw [hadd] at h; simp at h
        | ok b1 =>
          rw [hadd] at h
          cases hrec : processDoc doc rest with
          | panic m => rw [hrec] at h; simp at h
          | ok rest' =>
            rw [hrec] at h
            simp only [PanicOr.ok.injEq] at h
            subst h
            simp only [List.lookup, hbeq]
            exact ih rest' c buf hrec hl habs
      | none =>
        simp only [processDoc, hg] at h
        cases hrec : processDoc doc rest with
        | panic m => rw [hrec] at h; simp at h
        | ok rest' =>
          rw [hrec] at h
          simp only [PanicOr.ok.injEq] at h
          subst h
          simp only [List.lookup, hbeq]
          exact ih rest' c buf hrec hl habs

lemma processDoc_all_absent (doc : Doc) :
    ∀ buffers : Buffers, (∀ p ∈ buffers, Doc.get doc p.1 = none) →
      processDoc doc buffers = .ok (buffers.map (fun p => (p.1, p.2.add_null))) := by
  intro buffers
  induction buffers with
  | nil => intro _; rfl
  | cons p rest ih =>
    intro h
    obtain ⟨name, b0⟩ := p
    have hhead : Doc.get doc name = none := h (name, b0) (by simp)
    have hrest := ih (fun q hq => h q (by simp [hq]))
    simp only [processDoc, hhead, hrest, List.map_cons]

/-- Claim C6: for every document and every schema column absent from
it, `parse_lines`' per-document step appends a null marker to that
column's buffer, and the absent-field path never fails: a document
missing every schema column is processed successfully into an all-null
row. -/
theorem claim_C6_absent_null (doc : Doc) (buffers buffers' : Buffers)
    (c : String) (buf : Buffer) :
    (processDoc doc buffers = .ok buffers' →
      buffers.lookup c = some buf →
      Doc.get doc c = none →
      buffers'.lookup c = some buf.add_null) ∧
    ((∀ p ∈ buffers, Doc.get doc p.1 = none) →
      processDoc doc buffers = .ok (buffers.map (fun p => (p.1, p.2.add_null)))) :=
  ⟨fun h hl habs => processDoc_absent doc buffers buffers' c buf h hl habs,
   fun h => processDoc_all_absent doc buffers h⟩

/-- Witness for C6: a document holding only `_id` fills the absent `x`
column with a null and the processing succeeds. -/
theorem claim_C6_witness :
    (exBufsX.map (fun p => (p.1, p.2.add_null))).lookup "x" =
      some (Buffer.add_null { dtype := DataType.int64, cells := [] }) ∧
    processDoc exDocB exBufsX =
      .ok (exBufsX.map (fun p => (p.1, p.2.add_null))) := by
  have h := claim_C6_absent_null exDocB exBufsX
    (exBufsX.map (fun p => (p.1, p.2.add_null))) "x"
    { dtype := DataType.int64, cells := [] }
  have h2 := h.2 (by decide)
  exact ⟨h.1 h2 (by decide) (by decide), h2⟩

/-- Claim C7 (amended): `schema` fails (with the compute-error wrapping
of the driver error) when the initial sampling read fails; but an
empty successfully-read sample does not fail — it yields `Ok` with an
empty schema. -/
theorem claim_C7_schema_errors (e : String) (len : Option Nat) :
    schemaModel (.error e) len = .ok (.error (.computeError e)) ∧
    schemaModel (.ok []) len = .ok (.ok ([] : Schema)) := by
  constructor
  · rfl
  · simp [schemaModel, unwrapDocs, inferSchemaModel]

/-- Counterexample to C7 as stated: on an empty sampled document
sequence (a successful read of an empty collection), `schema` does not
fail with a schema-inference error — it returns a schema (the empty
one). -/
theorem claim_C7_counterexample :
    schemaModel (.ok []) (some 100) = .ok (.ok ([] : Schema)) := by
  simp [schemaModel, unwrapDocs, inferSchemaModel]

lemma processDoc_panic (doc : Doc) :
    ∀ buffers : Buffers,
      (∃ p ∈ buffers, ∃ v, Doc.get doc p.1 = some v ∧
        convertCell p.2.dtype v = none) →
      processDoc doc buffers = .panic "was not able to add to buffer." := by
  intro buffers
  induction buffers with
  | nil => rintro ⟨p, hp, _⟩; simp at hp
  | cons q rest ih =>
    rintro ⟨p, hp, v, hget, hcv⟩
    obtain ⟨name, b0⟩ := q
    cases hg : Doc.get doc name with
    | some v0 =>
      cases hcv0 : convertCell b0.dtype v0 with
      | none =>
        simp only [processDoc, hg, Buffer.add, hcv0]
      | some c0 =>
        have hrest : p ∈ rest := by
          rcases List.mem_cons.mp hp with heq | hmem
          · exfalso
            subst heq
            rw [hg] at hget
            cases hget
            rw [hcv0] at hcv
            cases hcv
          · exact hmem
        have hih := ih ⟨p, hrest, v, hget, hcv⟩
        simp only [processDoc, hg, Buffer.add, hcv0, hih]
    | none =>
      have hrest : p ∈ rest := by
        rcases List.mem_cons.mp hp with heq | hmem
        · exfalso
          subst heq
          rw [hg] at hget
          cases hget
        · exact hmem
      have hih := ih ⟨p, hrest, v, hget, hcv⟩
      simp only [processDoc, hg, hih]

lemma init_buffers_mem (schema : Schema) (cap : Nat) (p : String × DataType)
    (hp : p ∈ schema) :
    (p.1, ({ dtype := p.2, cells := [] } : Buffer)) ∈ init_buffers schema cap :=
  List.mem_map.mpr ⟨p, hp, rfl⟩

lemma scanPartition_panic (schema : Schema) (base : FindOptions)
    (coll : List Doc) (rpt idx : Nat) (d : Doc) (ds : List Doc)
    (hserve : findModel coll (partitionFindOptions base rpt idx) = d :: ds)
    (hfail : ∃ p ∈ schema, ∃ v, Doc.get d p.1 = some v ∧
      convertCell p.2 v = none) :
    scanPartition schema base coll rpt idx =
      .panic "was not able to add to buffer." := by
  obtain ⟨p, hp, v, hget, hcv⟩ := hfail
  have hpd : processDoc d (init_buffers schema rpt) =
      .panic "was not able to add to buffer." :=
    processDoc_panic d (init_buffers schema rpt)
      ⟨(p.1, { dtype := p.2, cells := [] }), init_buffers_mem schema rpt p hp,
        v, hget, hcv⟩
  simp only [scanPartition, hserve, List.map_cons, parse_lines, hpd]

lemma gatherParts_head_panic (g : Nat → PanicOr (Except PolarsError DataFrame))
    (t : Nat) (m : String) (hg : g 0 = .panic m) (ht : 0 < t) :
    gatherParts ((List.range t).map g) = .panic m := by
  obtain ⟨t', rfl⟩ : ∃ t', t = t' + 1 := ⟨t - 1, by omega⟩
  rw [List.range_succ_eq_map]
  simp only [List.map_cons, hg, gatherParts]

/-- Claim C3 (amended): when a served document's field holds a value
whose tag is structurally incompatible with the schema-assigned type of
its column buffer, the scan aborts with the panic raised by the
`expect` in `parse_lines` ("was not able to add to buffer.") — it does
not return a `ConversionError` value to the caller, it does not
null-fill, and no partial result is returned. -/
theorem claim_C3_conversion_panic (s : MongoScan) (poolThreads : Nat)
    (opts : AnonymousScanOptions) (coll : List Doc) (d : Doc) (ds : List Doc)
    (ht : 0 < effectiveThreads s poolThreads (effectiveNRows opts coll))
    (hserve : findModel coll
        (partitionFindOptions (baseFindOptions s opts)
          (rowsPerThread (effectiveNRows opts coll)
            (effectiveThreads s poolThreads (effectiveNRows opts coll))) 0) =
      d :: ds)
    (hfail : ∃ p ∈ opts.output_schema.getD opts.schema, ∃ v,
        Doc.get d p.1 = some v ∧ convertCell p.2 v = none) :
    scanModel s poolThreads opts coll = .panic "was not able to add to buffer." := by
  have htne : ¬ effectiveThreads s poolThreads (effectiveNRows opts coll) = 0 := by
    omega
  have hpart := scanPartition_panic (opts.output_schema.getD opts.schema)
    (baseFindOptions s opts)
    coll
    (rowsPerThread (effectiveNRows opts coll)
      (effectiveThreads s poolThreads (effectiveNRows opts coll)))
    0 d ds hserve hfail
  have hgather := gatherParts_head_panic
    (scanPartition (opts.output_schema.getD opts.schema) (baseFindOptions s opts)
      coll
      (rowsPerThread (effectiveNRows opts coll)
        (effectiveThreads s poolThreads (effectiveNRows opts coll))))
    (effectiveThreads s poolThreads (effectiveNRows opts coll))
    "was not able to add to buffer." hpart ht
  simp only [scanModel, htne, if_false, hgather]

/-- Witness for C3's amended theorem: the single document of
`exCollBad` offers the string `"a"` to the `x : Int64` buffer and the
scan panics. -/
theorem claim_C3_witness :
    0 < effectiveThreads exMongo 4 (effectiveNRows exOptsBad exCollBad) ∧
    scanModel exMongo 4 exOptsBad exCollBad =
      .panic "was not able to add to buffer." := by
  refine ⟨by decide, ?_⟩
  exact claim_C3_conversion_panic exMongo 4 exOptsBad exCollBad
    [("_id", Bson.int64 0), ("x", Bson.string "a")] [] (by decide) (by decide)
    ⟨("x", DataType.int64), by decide, Bson.string "a", by decide, by decide⟩

/-- Counterexample to C3 as stated: the scan on `exCollBad` ends in a
panic, not in a synchronously returned `ConversionError` value — the
outcome is `panic`, which is no `Except.error` result. -/
theorem claim_C3_counterexample :
    scanModel exMongo 4 exOptsBad exCollBad =
      .panic "was not able to add to buffer." := by
  decide

lemma parse_lines_idDocs (docs : List Doc) :
    ∀ cs : List Cell,
      (∀ d ∈ docs, ∃ v : Int, Doc.get d "_id" = some (Bson.int64 v)) →
      parse_lines (docs.map Except.ok)
          [("_id", { dtype := DataType.int64, cells := cs })] =
        .ok (.ok [("_id",
          { dtype := DataType.int64, cells := cs ++ docs.map idCell })]) := by
  induction docs with
  | nil => intro cs _; simp [parse_lines]
  | cons d rest ih =>
    intro cs h
    obtain ⟨v, hv⟩ := h d (by simp)
    have hproc : processDoc d [("_id", { dtype := DataType.int64, cells := cs })] =
        .ok [("_id", { dtype := DataType.int64, cells := cs ++ [Cell.int v] })] := by
      simp only [processDoc, hv, Buffer.add, convertCell]
    have hidc : idCell d = Cell.int v := by simp [idCell, hv]
    simp only [List.map_cons, parse_lines, hproc]
    rw [ih (cs ++ [Cell.int v]) (fun q hq => h q (by simp [hq]))]
    simp [hidc]

lemma findModel_length (coll : List Doc) (opts : FindOptions) (l : Nat)
    (hlim : opts.limit = some l) (hprj : opts.projection = none)
    (hbound : opts.skip.getD 0 + l ≤ coll.length) :
    (findModel coll opts).length = l := by
  unfold findModel
  rw [hlim, hprj]
  have hsortlen :
      (match opts.sort with
        | some SortSpec.idDesc => List.insertionSort docDescLE coll
        | none => coll).length = coll.length := by
    cases hs : opts.sort with
    | none => rfl
    | some sp =>
      cases sp
      exact List.length_insertionSort docDescLE coll
  simp only [List.length_take, List.length_drop, hsortlen]
  omega

lemma findModel_mem (coll : List Doc) (opts : FindOptions) (d : Doc)
    (hprj : opts.projection = none) (hd : d ∈ findModel coll opts) :
    d ∈ coll := by
  unfold findModel at hd
  rw [hprj] at hd
  have hsorted :
      ∀ x, x ∈ (match opts.sort with
        | some SortSpec.idDesc => List.insertionSort docDescLE coll
        | none => coll) → x ∈ coll := by
    intro x hx
    cases hs : opts.sort with
    | none => rw [hs] at hx; exact hx
    | some sp =>
      cases sp
      rw [hs] at hx
      exact (List.perm_insertionSort docDescLE coll).subset hx
  cases hl : opts.limit with
  | none =>
    rw [hl] at hd
    exact hsorted d (List.mem_of_mem_drop hd)
  | some l =>
    rw [hl] at hd
    exact hsorted d (List.mem_of_mem_drop (List.mem_of_mem_take hd))

lemma mkRows_length (n : Nat) (cols : List (List Cell)) :
    (mkRows n cols).length = n := by
  simp [mkRows]

lemma scanPartition_idOnly (coll : List Doc) (base : FindOptions)
    (rpt idx : Nat)
    (hcoll : ∀ d ∈ coll, ∃ v : Int, Doc.get d "_id" = some (Bson.int64 v))
    (hprj : base.projection = none) :
    scanPartition [("_id", DataType.int64)] base coll rpt idx =
      .ok (.ok (partDF coll base rpt idx)) := by
  have hmem : ∀ d ∈ servedDocs coll base rpt idx,
      ∃ v : Int, Doc.get d "_id" = some (Bson.int64 v) := by
    intro d hd
    exact hcoll d
      (findModel_mem coll _ d (by simp [partitionFindOptions, hprj]) hd)
  have hpl := parse_lines_idDocs (servedDocs coll base rpt idx) [] hmem
  simp only [List.nil_append] at hpl
  unfold servedDocs at hpl
  simp only [scanPartition, init_buffers, List.map_cons, List.map_nil]
  rw [hpl]
  simp [dataFrameNew, dfCells, partDF, servedDocs]

lemma partDF_rowCount (coll : List Doc) (base : FindOptions) (rpt idx : Nat)
    (hlen : (servedDocs coll base rpt idx).length = rpt) :
    (partDF coll base rpt idx).rows.length = rpt := by
  simp [partDF, mkRows_length, hlen]

lemma gatherParts_all_ok (g : Nat → PanicOr (Except PolarsError DataFrame))
    (f : Nat → DataFrame) :
    ∀ idxs : List Nat, (∀ i ∈ idxs, g i = .ok (.ok (f i))) →
      gatherParts (idxs.map g) = .ok (.ok (idxs.map f)) := by
  intro idxs
  induction idxs with
  | nil => intro _; rfl
  | cons i rest ih =>
    intro h
    rw [List.map_cons, h i (by simp)]
    have hr := ih (fun j hj => h j (by simp [hj]))
    simp only [gatherParts, hr, List.map_cons]

lemma vstackFold_same_cols (cols : List String) :
    ∀ (dfs : List DataFrame) (acc : DataFrame), acc.cols = cols →
      (∀ df ∈ dfs, df.cols = cols) →
      vstackFold acc dfs =
        .ok { cols := cols,
              rows := acc.rows ++ (dfs.map DataFrame.rows).flatten } := by
  intro dfs
  induction dfs with
  | nil =>
    intro acc hacc _
    cases acc
    simp_all [vstackFold]
  | cons d rest ih =>
    intro acc hacc h
    have hv : vstack acc d = .ok { cols := cols, rows := acc.rows ++ d.rows } := by
      simp [vstack, hacc, h d (by simp)]
    simp only [vstackFold, hv]
    rw [ih { cols := cols, rows := acc.rows ++ d.rows } rfl
      (fun q hq => h q (by simp [hq]))]
    simp

lemma accumulateDfs_same_cols (cols : List String) (dfs : List DataFrame)
    (h : ∀ df ∈ dfs, df.cols = cols) (hne : dfs ≠ []) :
    accumulateDfs dfs =
      .ok { cols := cols, rows := (dfs.map DataFrame.rows).flatten } := by
  cases dfs with
  | nil => exact absurd rfl hne
  | cons d rest =>
    rw [accumulateDfs]
    rw [vstackFold_same_cols cols rest d (h d (by simp))
      (fun q hq => h q (by simp [hq]))]
    simp

lemma collC1_ids : ∀ d ∈ collC1, ∃ v : Int, Doc.get d "_id" = some (Bson.int64 v) := by
  intro d hd
  simp only [collC1, List.mem_map, List.mem_range] at hd
  obtain ⟨k, _, rfl⟩ := hd
  exact ⟨k, rfl⟩

lemma scanC1_result (cfg : Nat) (hcfg : 2 ≤ cfg) :
    ∃ rows : List (List Cell),
      scanModel (mongoC1 cfg) 8 scanOptsC1 collC1 =
        .ok (.ok { cols := ["_id"], rows := rows }) ∧
      rows.length = cfg * (129 / cfg) ∧
      List.Sorted (rowAscLE 0) rows := by
  have hn : effectiveNRows scanOptsC1 collC1 = 129 := rfl
  have ht : effectiveThreads (mongoC1 cfg) 8 129 = cfg := by
    simp [effectiveThreads, mongoC1]
  have hcfg0 : ¬ (cfg = 0) := by omega
  have hprj : (baseFindOptions (mongoC1 cfg) scanOptsC1).projection = none := rfl
  have hpart : ∀ idx ∈ List.range cfg,
      scanPartition [("_id", DataType.int64)]
          (baseFindOptions (mongoC1 cfg) scanOptsC1) collC1 (129 / cfg) idx =
        .ok (.ok (partDF collC1 (baseFindOptions (mongoC1 cfg) scanOptsC1)
          (129 / cfg) idx)) := by
    intro idx _
    exact scanPartition_idOnly collC1 _ (129 / cfg) idx collC1_ids hprj
  have hcollLen : collC1.length = 1000 := by simp [collC1]
  have hmul : cfg * (129 / cfg) ≤ 129 := by
    have h0 := Nat.div_mul_le_self 129 cfg
    calc cfg * (129 / cfg) = 129 / cfg * cfg := by ring
      _ ≤ 129 := h0
  have hlen : ∀ idx, idx < cfg →
      (servedDocs collC1 (baseFindOptions (mongoC1 cfg) scanOptsC1)
        (129 / cfg) idx).length = 129 / cfg := by
    intro idx hidx
    apply findModel_length collC1 _ (129 / cfg) rfl
      (by simp [partitionFindOptions, hprj])
    have hstep : (idx + 1) * (129 / cfg) ≤ cfg * (129 / cfg) :=
      Nat.mul_le_mul_right _ (by omega)
    have heq : idx * (129 / cfg) + 129 / cfg = (idx + 1) * (129 / cfg) := by ring
    have hskip : (partitionFindOptions (baseFindOptions (mongoC1 cfg) scanOptsC1)
        (129 / cfg) idx).skip = some (idx * (129 / cfg)) := rfl
    rw [hskip, hcollLen]
    simp only [Option.getD_some]
    omega
  have hgather := gatherParts_all_ok
    (scanPartition [("_id", DataType.int64)]
      (baseFindOptions (mongoC1 cfg) scanOptsC1) collC1 (129 / cfg))
    (fun idx => partDF collC1 (baseFindOptions (mongoC1 cfg) scanOptsC1)
      (129 / cfg) idx)
    (List.range cfg) hpart
  have hne : (List.range cfg).map
      (fun idx => partDF collC1 (baseFindOptions (mongoC1 cfg) scanOptsC1)
        (129 / cfg) idx) ≠ [] := by
    simp only [ne_eq, List.map_eq_nil_iff, List.range_eq_nil]
    omega
  have hcols : ∀ df ∈ (List.range cfg).map
      (fun idx => partDF collC1 (baseFindOptions (mongoC1 cfg) scanOptsC1)
        (129 / cfg) idx), df.cols = ["_id"] := by
    intro df hdf
    simp only [List.mem_map] at hdf
    obtain ⟨idx, _, rfl⟩ := hdf
    rfl
  have hacc := accumulateDfs_same_cols ["_id"] _ hcols hne
  have hlenAll : ((((List.range cfg).map
      (fun idx => partDF collC1 (baseFindOptions (mongoC1 cfg) scanOptsC1)
        (129 / cfg) idx)).map DataFrame.rows).flatten).length =
      cfg * (129 / cfg) := by
    rw [List.length_flatten]
    have hrep : (((List.range cfg).map
        (fun idx => partDF collC1 (baseFindOptions (mongoC1 cfg) scanOptsC1)
          (129 / cfg) idx)).map DataFrame.rows).map List.length =
        List.replicate cfg (129 / cfg) := by
      rw [List.eq_replicate_iff]
      constructor
      · simp
      · intro b hb
        simp only [List.map_map, List.mem_map, List.mem_range,
          Function.comp] at hb
        obtain ⟨idx, hidx, rfl⟩ := hb
        exact partDF_rowCount collC1 _ (129 / cfg) idx (hlen idx hidx)
    rw [hrep, List.sum_replicate, smul_eq_mul]
  refine ⟨List.insertionSort (rowAscLE 0)
    ((((List.range cfg).map
      (fun idx => partDF collC1 (baseFindOptions (mongoC1 cfg) scanOptsC1)
        (129 / cfg) idx)).map DataFrame.rows).flatten), ?_, ?_, ?_⟩
  · simp only [scanModel, hn, ht]
    rw [if_neg hcfg0]
    have hschema : scanOptsC1.output_schema.getD scanOptsC1.schema =
        [("_id", DataType.int64)] := rfl
    have hrpt : rowsPerThread 129 cfg = 129 / cfg := rfl
    rw [hschema, hrpt, hgather]
    simp only [hacc]
    rw [if_pos (show scanOptsC1.n_rows.getD 0 > 0 by decide)]
    rfl
  · rw [List.length_insertionSort]
    exact hlenAll
  · exact List.sorted_insertionSort (rowAscLE 0) _

/-- Claim C1 (amended): scanning the 1000-document model collection with
an explicit row bound `n_rows = 129` and a configured thread count
`cfg ≥ 2` yields a result whose rows are in ascending identity order —
the descending partitioned fetch followed by the ascending re-sort
restores natural order — but whose row count is
`cfg * (129 / cfg)`, which equals 129 only when `cfg` divides 129
(e.g. 128 rows for 2 threads). -/
theorem claim_C1_scan129 (cfg : Nat) (hcfg : 2 ≤ cfg) :
    ∃ rows : List (List Cell),
      scanModel (mongoC1 cfg) 8 scanOptsC1 collC1 =
        .ok (.ok { cols := ["_id"], rows := rows }) ∧
      rows.length = cfg * (129 / cfg) ∧
      List.Sorted (rowAscLE 0) rows :=
  scanC1_result cfg hcfg

/-- Witness for C1's amended theorem at three threads, where
`3 * (129 / 3) = 129`. -/
theorem claim_C1_witness :
    2 ≤ 3 ∧
    ∃ rows : List (List Cell),
      scanModel (mongoC1 3) 8 scanOptsC1 collC1 =
        .ok (.ok { cols := ["_id"], rows := rows }) ∧
      rows.length = 3 * (129 / 3) ∧
      List.Sorted (rowAscLE 0) rows :=
  ⟨by omega, claim_C1_scan129 3 (by omega)⟩

/-- Counterexample to C1 as stated: with two threads the scan of the
1000-document collection bounded at `n_rows = 129` returns 128 rows
(`2 * (129 / 2)`), not 129. -/
theorem claim_C1_counterexample :
    scanRowCount (scanModel (mongoC1 2) 8 scanOptsC1 collC1) = some 128 := by
  obtain ⟨rows, heq, hlen, _⟩ := scanC1_result 2 (by omega)
  rw [heq]
  simp only [scanRowCount, DataFrame.rowCount]
  rw [hlen]

end PolarsMongo
